import Mathlib

/-!
Verification of the note-taking backend (src/app.py) against its
natural-language specification.  The five CRUD handlers of the Flask
service are shallowly embedded as pure Lean functions over an explicit
database state; timestamps are abstracted as natural numbers handed to
each handler (the value of `datetime.utcnow()` at the moment the handler
runs).
-/

namespace NotesApp

/-- A JSON value appearing as a field of the request body.  The handlers
only ever call `.strip()` on these, so only `null` and strings matter. -/
inductive JVal where
  | null : JVal
  | str : String → JVal
deriving DecidableEq, Repr

/-- A parsed JSON request body: each relevant key is either absent
(`none`) or present with a JSON value. -/
structure Body where
  title : Option JVal := none
  content : Option JVal := none
deriving DecidableEq, Repr

/-- Python `payload.get(key)`: an absent key and a key whose value is
JSON `null` both come back as `None`. -/
def Body.get : Option JVal → Option String
  | none => none
  | some JVal.null => none
  | some (JVal.str s) => some s

/-- Embedding of `request.get_json(silent=True) or {}`: an absent or
unparseable body is replaced by the empty object. -/
def parseBody : Option Body → Body
  | none => {}
  | some b => b

/-- Python `(x or "")` for an optional string: `None` and `""` both give
`""`, any other string gives itself. -/
def pyOrEmpty (o : Option String) : String := o.getD ""

/-- The `notes` table row (class `Note` in src/app.py).  `content` is a
nullable column, hence `Option String`. -/
structure Note where
  id : Nat
  title : String
  content : Option String
  created_at : Nat
  updated_at : Nat
deriving DecidableEq, Repr

/-- Rendering of a timestamp by `datetime.isoformat()`, abstracted as the
decimal rendering of the abstract clock value (injective and monotone,
which is all the spec relies on). -/
def isoformat (t : Nat) : String := toString t

/-- The serialized representation produced by `Note.to_dict`. -/
structure NoteDict where
  id : Nat
  title : String
  content : String
  created_at : String
  updated_at : String
deriving DecidableEq, Repr

/-- Embedding of `Note.to_dict` (src/app.py:44-51); `self.content or ""`
substitutes the empty string for a null column. -/
def Note.to_dict (n : Note) : NoteDict :=
  { id := n.id
    title := n.title
    content := pyOrEmpty n.content
    created_at := isoformat n.created_at
    updated_at := isoformat n.updated_at }

/-- The database state: the rows of the `notes` table in insertion
order, plus the autoincrement counter the datastore uses to assign the
next primary key. -/
structure DB where
  notes : List Note := []
  nextId : Nat := 1
deriving DecidableEq, Repr

/-- `session.get(Note, note_id)`: primary-key lookup. -/
def DB.getNote (db : DB) (id : Nat) : Option Note :=
  db.notes.find? (fun n => n.id = id)

/-- A JSON response body, as produced by `jsonify` in the handlers. -/
inductive Resp where
  | note : NoteDict → Resp
  | list : List NoteDict → Resp
  | err : String → Resp
  | ack : Bool → Resp
deriving DecidableEq, Repr

/-- A handler result: HTTP status code and JSON body. -/
structure HttpOut where
  status : Nat
  body : Resp
deriving DecidableEq, Repr

/-- The comparison used by the SQL `ORDER BY created_at DESC`: `a` may
come before `b` when `a` was created no earlier than `b`. -/
def createdDesc (a b : Note) : Prop := b.created_at ≤ a.created_at

instance : DecidableRel createdDesc :=
  fun a b => inferInstanceAs (Decidable (b.created_at ≤ a.created_at))

instance : IsTotal Note createdDesc :=
  ⟨fun a b => (Nat.le_total b.created_at a.created_at).imp id id⟩

instance : IsTrans Note createdDesc :=
  ⟨fun _ _ _ hab hbc => Nat.le_trans hbc hab⟩

/-- Sort rows by `created_at` descending (the
`order_by(Note.created_at.desc())` of `list_notes`). -/
def sortByCreatedDesc (l : List Note) : List Note :=
  l.insertionSort createdDesc

/-- Embedding of `list_notes` (src/app.py:79-86): all rows ordered by
`created_at` descending, serialized by `to_dict`; read-only. -/
def list_notes (db : DB) : HttpOut :=
  ⟨200, Resp.list ((sortByCreatedDesc db.notes).map Note.to_dict)⟩

/-- Embedding of `create_note` (src/app.py:89-105).  `now` is the value
of `datetime.utcnow()` during the request. -/
def create_note (body : Option Body) (now : Nat) (db : DB) : HttpOut × DB :=
  let payload := parseBody body
  let title := (pyOrEmpty (Body.get payload.title)).trim
  let content := (pyOrEmpty (Body.get payload.content)).trim
  if title = "" then
    (⟨400, Resp.err "title is required"⟩, db)
  else
    let note : Note :=
      { id := db.nextId, title := title, content := some content
        created_at := now, updated_at := now }
    (⟨201, Resp.note note.to_dict⟩,
     { notes := db.notes ++ [note], nextId := db.nextId + 1 })

/-- Embedding of `get_note` (src/app.py:108-117). -/
def get_note (id : Nat) (db : DB) : HttpOut :=
  match db.getNote id with
  | none => ⟨404, Resp.err "not found"⟩
  | some n => ⟨200, Resp.note n.to_dict⟩

/-- The row produced by applying the `update_note` field assignments to
a fetched row: a field whose `payload.get` is `None` (absent or JSON
null) is left alone, a present string is stripped and assigned, and
`updated_at` is set to `now` unconditionally. -/
def applyUpdate (payload : Body) (now : Nat) (n : Note) : Note :=
  let n1 := match Body.get payload.title with
    | none => n
    | some t => { n with title := t.trim }
  let n2 := match Body.get payload.content with
    | none => n1
    | some c => { n1 with content := some c.trim }
  { n2 with updated_at := now }

/-- Embedding of `update_note` (src/app.py:120-139). -/
def update_note (id : Nat) (body : Option Body) (now : Nat) (db : DB) :
    HttpOut × DB :=
  let payload := parseBody body
  match db.getNote id with
  | none => (⟨404, Resp.err "not found"⟩, db)
  | some n =>
    let n3 := applyUpdate payload now n
    (⟨200, Resp.note n3.to_dict⟩,
     { db with notes := db.notes.map (fun m => if m.id = id then n3 else m) })

/-- Embedding of `delete_note` (src/app.py:142-153). -/
def delete_note (id : Nat) (db : DB) : HttpOut × DB :=
  match db.getNote id with
  | none => (⟨404, Resp.err "not found"⟩, db)
  | some _ =>
    (⟨200, Resp.ack true⟩,
     { db with notes := db.notes.filter (fun m => m.id ≠ id) })

/-- The spec's title invariant: every stored note has a non-empty title
after trimming. -/
def TitlesValid (db : DB) : Prop :=
  ∀ n ∈ db.notes, n.title.trim ≠ ""

instance (db : DB) : Decidable (TitlesValid db) :=
  inferInstanceAs (Decidable (∀ n ∈ db.notes, n.title.trim ≠ ""))

/-- The spec's timestamp invariant: `created_at <= updated_at` on every
stored note. -/
def TimesValid (db : DB) : Prop :=
  ∀ n ∈ db.notes, n.created_at ≤ n.updated_at

instance (db : DB) : Decidable (TimesValid db) :=
  inferInstanceAs (Decidable (∀ n ∈ db.notes, n.created_at ≤ n.updated_at))

/-- List-level counterpart of Python `str.strip()` / Lean `String.trim`:
drop whitespace from the front, then from the back. -/
def listTrim (l : List Char) : List Char :=
  (l.dropWhile Char.isWhitespace).rdropWhile Char.isWhitespace

/-! Characterization of `String.trim` at the level of character lists.
`String.trim` is defined through `Substring.takeWhileAux` and
`Substring.takeRightWhileAux`, which recurse on byte positions and do not
reduce definitionally, so concrete computations and the idempotence fact
needed below all go through `trim_data_eq`. -/

theorem takeRightWhileAux_of_valid (p : Char → Bool) (l : List Char) :
    ∀ m r : List Char,
      Substring.takeRightWhileAux ⟨l ++ m ++ r⟩ ⟨String.utf8Len l⟩ p
          ⟨String.utf8Len l + String.utf8Len m⟩ =
        ⟨String.utf8Len l + String.utf8Len (m.rdropWhile p)⟩ := by
  intro m
  induction m using List.reverseRecOn with
  | nil =>
    intro r
    unfold Substring.takeRightWhileAux
    simp
  | append_singleton m c ih =>
    intro r
    have hprev : (⟨l ++ (m ++ [c]) ++ r⟩ : String).prev
        ⟨String.utf8Len l + String.utf8Len (m ++ [c])⟩ = ⟨String.utf8Len (l ++ m)⟩ := by
      have h := String.prev_of_valid (l ++ m) c r
      have h1 : (l ++ m) ++ c :: r = l ++ (m ++ [c]) ++ r := by simp
      have h2 : String.utf8Len (l ++ m) + c.utf8Size =
          String.utf8Len l + String.utf8Len (m ++ [c]) := by
        simp [Nat.add_assoc]
      rw [h1, h2] at h
      exact h
    have hget : (⟨l ++ (m ++ [c]) ++ r⟩ : String).get ⟨String.utf8Len (l ++ m)⟩ = c := by
      have h := String.get_of_valid (l ++ m) (c :: r)
      have h1 : (l ++ m) ++ c :: r = l ++ (m ++ [c]) ++ r := by simp
      rw [h1] at h
      simpa using h
    unfold Substring.takeRightWhileAux
    rw [dif_pos (by
      show String.utf8Len l < String.utf8Len l + String.utf8Len (m ++ [c])
      have hc : 0 < String.utf8Len (m ++ [c]) := by
        simp [Nat.add_pos_right _ c.utf8Size_pos]
      omega)]
    simp only [hprev, hget]
    cases hp : p c
    · rw [List.rdropWhile_concat_neg _ _ _ (by simp [hp])]
      simp [hp]
    · rw [List.rdropWhile_concat_pos _ _ _ (by simp [hp])]
      simp only [hp, Bool.not_true, Bool.false_eq_true, if_false]
      have h1 : l ++ (m ++ [c]) ++ r = l ++ m ++ (c :: r) := by simp
      rw [h1]
      have h2 : (⟨String.utf8Len (l ++ m)⟩ : String.Pos) =
          ⟨String.utf8Len l + String.utf8Len m⟩ := by simp
      rw [h2]
      exact ih (c :: r)

theorem rdropWhile_append_rtakeWhile {α : Type _} (p : α → Bool) (l : List α) :
    l.rdropWhile p ++ l.rtakeWhile p = l := by
  rw [List.rdropWhile, List.rtakeWhile, ← List.reverse_append,
    List.takeWhile_append_dropWhile, List.reverse_reverse]

theorem trim_data_eq (s : String) : s.trim = ⟨listTrim s.data⟩ := by
  obtain ⟨m⟩ := s
  have hb :
      Substring.takeWhileAux ⟨m⟩ (String.endPos ⟨m⟩) Char.isWhitespace 0 =
        ⟨String.utf8Len (m.takeWhile Char.isWhitespace)⟩ := by
    simpa using String.takeWhileAux_of_valid Char.isWhitespace [] m []
  have hlen : String.utf8Len (m.takeWhile Char.isWhitespace) +
      String.utf8Len (m.dropWhile Char.isWhitespace) = String.utf8Len m := by
    rw [← String.utf8Len_append, List.takeWhile_append_dropWhile]
  have he :
      Substring.takeRightWhileAux ⟨m⟩ ⟨String.utf8Len (m.takeWhile Char.isWhitespace)⟩
          Char.isWhitespace (String.endPos ⟨m⟩) =
        ⟨String.utf8Len (m.takeWhile Char.isWhitespace) +
          String.utf8Len ((m.dropWhile Char.isWhitespace).rdropWhile Char.isWhitespace)⟩ := by
    have h := takeRightWhileAux_of_valid Char.isWhitespace
      (m.takeWhile Char.isWhitespace) (m.dropWhile Char.isWhitespace) []
    have hstr : m.takeWhile Char.isWhitespace ++ m.dropWhile Char.isWhitespace ++ [] = m := by
      simp [List.takeWhile_append_dropWhile]
    rw [hstr, hlen] at h
    rw [String.endPos_eq]
    exact h
  have hextract := String.extract_of_valid (m.takeWhile Char.isWhitespace)
    ((m.dropWhile Char.isWhitespace).rdropWhile Char.isWhitespace)
    ((m.dropWhile Char.isWhitespace).rtakeWhile Char.isWhitespace)
  have hm : m.takeWhile Char.isWhitespace ++
      (m.dropWhile Char.isWhitespace).rdropWhile Char.isWhitespace ++
      (m.dropWhile Char.isWhitespace).rtakeWhile Char.isWhitespace = m := by
    rw [List.append_assoc, rdropWhile_append_rtakeWhile, List.takeWhile_append_dropWhile]
  rw [hm] at hextract
  show Substring.toString
      ⟨⟨m⟩, Substring.takeWhileAux ⟨m⟩ (String.endPos ⟨m⟩) Char.isWhitespace 0,
        Substring.takeRightWhileAux ⟨m⟩
          (Substring.takeWhileAux ⟨m⟩ (String.endPos ⟨m⟩) Char.isWhitespace 0)
          Char.isWhitespace (String.endPos ⟨m⟩)⟩ = ⟨listTrim m⟩
  rw [hb, he]
  show String.extract ⟨m⟩ _ _ = _
  simp only [listTrim]
  exact hextract

theorem dropWhile_rdropWhile {α : Type _} (p : α → Bool) (l : List α) :
    ((l.dropWhile p).rdropWhile p).dropWhile p = (l.dropWhile p).rdropWhile p := by
  obtain ⟨t, ht⟩ := List.rdropWhile_prefix (p := p) (l := l.dropWhile p)
  cases hr : (l.dropWhile p).rdropWhile p with
  | nil => simp
  | cons a r =>
    rw [hr] at ht
    cases hpc : p a with
    | false => rw [List.dropWhile_cons, if_neg (by simp [hpc])]
    | true =>
      exfalso
      have hd : l.dropWhile p = a :: (r ++ t) := by rw [← ht]; simp
      have hidem := List.dropWhile_idempotent p l
      rw [hd, List.dropWhile_cons, if_pos (by simp [hpc])] at hidem
      have hlen := congrArg List.length hidem
      have hle := (List.dropWhile_sublist (l := r ++ t) p).length_le
      simp only [List.length_cons] at hlen
      omega

theorem listTrim_idem (l : List Char) : listTrim (listTrim l) = listTrim l := by
  unfold listTrim
  rw [dropWhile_rdropWhile, List.rdropWhile_idempotent]

/-- Python `str.strip()` is idempotent: trimming a trimmed string changes
nothing.  Stored titles and contents are always trim outputs, so this is
what makes the trimmed-title invariant survive re-trimming. -/
theorem trim_trim (s : String) : s.trim.trim = s.trim := by
  rw [trim_data_eq s, trim_data_eq ⟨listTrim s.data⟩]
  show (⟨listTrim (listTrim s.data)⟩ : String) = _
  rw [listTrim_idem]

/-! Helper facts about `applyUpdate` and primary-key lookup. -/

theorem applyUpdate_id (p : Body) (t : Nat) (n : Note) : (applyUpdate p t n).id = n.id := by
  unfold applyUpdate
  cases Body.get p.title <;> cases Body.get p.content <;> rfl

theorem applyUpdate_created_at (p : Body) (t : Nat) (n : Note) :
    (applyUpdate p t n).created_at = n.created_at := by
  unfold applyUpdate
  cases Body.get p.title <;> cases Body.get p.content <;> rfl

theorem applyUpdate_updated_at (p : Body) (t : Nat) (n : Note) :
    (applyUpdate p t n).updated_at = t := by
  unfold applyUpdate
  cases Body.get p.title <;> cases Body.get p.content <;> rfl

theorem applyUpdate_title (p : Body) (t : Nat) (n : Note) :
    (applyUpdate p t n).title = (Body.get p.title).elim n.title String.trim := by
  unfold applyUpdate
  cases Body.get p.title <;> cases Body.get p.content <;> rfl

theorem applyUpdate_content (p : Body) (t : Nat) (n : Note) :
    (applyUpdate p t n).content =
      (Body.get p.content).elim n.content (fun s => some s.trim) := by
  unfold applyUpdate
  cases Body.get p.title <;> cases Body.get p.content <;> rfl

theorem getNote_mem (db : DB) (id : Nat) (n : Note) (h : db.getNote id = some n) :
    n ∈ db.notes ∧ n.id = id := by
  unfold DB.getNote at h
  refine ⟨List.mem_of_find?_eq_some h, ?_⟩
  have h2 := List.find?_some h
  simpa using h2

/-- C3: a Create request whose title trims to the empty string fails with
status 400 and body `{"error": "title is required"}`, and no row is
persisted: the stored state, and hence the List result, are unchanged. -/
theorem C3_create_empty_title_rejected (body : Option Body) (now : Nat) (db : DB)
    (h : (pyOrEmpty (Body.get (parseBody body).title)).trim = "") :
    create_note body now db = (⟨400, Resp.err "title is required"⟩, db) ∧
    list_notes (create_note body now db).2 = list_notes db := by
  have hc : create_note body now db = (⟨400, Resp.err "title is required"⟩, db) := by
    unfold create_note
    simp [h]
  exact ⟨hc, by rw [hc]⟩

theorem C3_create_empty_title_rejected_witness :
    create_note (some ⟨some (JVal.str "   "), none⟩) 7 ⟨[], 1⟩ =
      (⟨400, Resp.err "title is required"⟩, (⟨[], 1⟩ : DB)) :=
  (C3_create_empty_title_rejected (some ⟨some (JVal.str "   "), none⟩) 7 ⟨[], 1⟩
    (by rw [trim_data_eq]; rfl)).1

/-- C4: a Create request whose title trims non-empty returns status 201
with the persisted representation: the id is assigned by the datastore
(the autoincrement counter), title and content are the trimmed inputs,
`created_at` equals `updated_at`, and an omitted content field is stored
and rendered as the empty string, never null. -/
theorem C4_create_valid (body : Option Body) (now : Nat) (db : DB)
    (h : (pyOrEmpty (Body.get (parseBody body).title)).trim ≠ "") :
    create_note body now db =
      (⟨201, Resp.note
        { id := db.nextId
          title := (pyOrEmpty (Body.get (parseBody body).title)).trim
          content := (pyOrEmpty (Body.get (parseBody body).content)).trim
          created_at := isoformat now
          updated_at := isoformat now }⟩,
       { notes := db.notes ++
           [{ id := db.nextId
              title := (pyOrEmpty (Body.get (parseBody body).title)).trim
              content := some ((pyOrEmpty (Body.get (parseBody body).content)).trim)
              created_at := now
              updated_at := now }]
         nextId := db.nextId + 1 }) ∧
    ((parseBody body).content = none →
      (pyOrEmpty (Body.get (parseBody body).content)).trim = "") := by
  constructor
  · unfold create_note
    simp only [pyOrEmpty] at h
    simp [h, Note.to_dict, pyOrEmpty]
  · intro hc
    rw [hc]
    show (pyOrEmpty (Body.get none)).trim = ""
    rw [trim_data_eq]
    rfl

theorem C4_create_valid_witness :
    create_note (some ⟨some (JVal.str "  hi "), none⟩) 5 ⟨[], 1⟩ =
      (⟨201, Resp.note
        { id := 1, title := ("  hi " : String).trim, content := ("" : String).trim
          created_at := isoformat 5, updated_at := isoformat 5 }⟩,
       { notes := [{ id := 1, title := ("  hi " : String).trim
                     content := some (("" : String).trim)
                     created_at := 5, updated_at := 5 }]
         nextId := 2 }) ∧
    ((parseBody (some ⟨some (JVal.str "  hi "), none⟩)).content = none →
      (pyOrEmpty (Body.get (parseBody (some ⟨some (JVal.str "  hi "), none⟩)).content)).trim
        = "") :=
  C4_create_valid (some ⟨some (JVal.str "  hi "), none⟩) 5 ⟨[], 1⟩
    (by rw [trim_data_eq]; decide)

/-- C5: Get, Update and Delete on an id with no matching stored note all
return status 404 with body `{"error": "not found"}` — never a default or
partial note — and leave the stored state unchanged. -/
theorem C5_missing_id_not_found (id : Nat) (db : DB) (body : Option Body) (now : Nat)
    (h : db.getNote id = none) :
    get_note id db = ⟨404, Resp.err "not found"⟩ ∧
    update_note id body now db = (⟨404, Resp.err "not found"⟩, db) ∧
    delete_note id db = (⟨404, Resp.err "not found"⟩, db) := by
  refine ⟨?_, ?_, ?_⟩ <;> simp [get_note, update_note, delete_note, h]

theorem C5_missing_id_not_found_witness :
    get_note 999999 ⟨[], 1⟩ = ⟨404, Resp.err "not found"⟩ ∧
    update_note 999999 none 3 ⟨[], 1⟩ = (⟨404, Resp.err "not found"⟩, (⟨[], 1⟩ : DB)) ∧
    delete_note 999999 ⟨[], 1⟩ = (⟨404, Resp.err "not found"⟩, (⟨[], 1⟩ : DB)) :=
  C5_missing_id_not_found 999999 ⟨[], 1⟩ none 3 rfl

/-- C7: Delete on an existing id removes the row and returns
`{"ok": true}`; afterwards a Get of the same id is a 404, and a second
Delete of the same id is a 404 rather than a crash. -/
theorem C7_delete_then_gone (id : Nat) (db : DB) (n : Note)
    (h : db.getNote id = some n) :
    delete_note id db =
      (⟨200, Resp.ack true⟩, ⟨db.notes.filter (fun m => m.id ≠ id), db.nextId⟩) ∧
    get_note id (delete_note id db).2 = ⟨404, Resp.err "not found"⟩ ∧
    delete_note id (delete_note id db).2 =
      (⟨404, Resp.err "not found"⟩, (delete_note id db).2) := by
  have hd : delete_note id db =
      (⟨200, Resp.ack true⟩, ⟨db.notes.filter (fun m => m.id ≠ id), db.nextId⟩) := by
    unfold delete_note
    rw [h]
  have hnone : (⟨db.notes.filter (fun m => m.id ≠ id), db.nextId⟩ : DB).getNote id = none := by
    unfold DB.getNote
    rw [List.find?_eq_none]
    intro x hx
    have hne := (List.mem_filter.mp hx).2
    simpa using hne
  refine ⟨hd, ?_, ?_⟩
  · rw [hd]
    unfold get_note
    rw [hnone]
  · rw [hd]
    unfold delete_note
    rw [hnone]

theorem C7_delete_then_gone_witness :
    delete_note 1 ⟨[⟨1, "a", some "", 0, 0⟩], 2⟩ =
      (⟨200, Resp.ack true⟩,
       ⟨([⟨1, "a", some "", 0, 0⟩] : List Note).filter (fun m => m.id ≠ 1), 2⟩) ∧
    get_note 1 (delete_note 1 ⟨[⟨1, "a", some "", 0, 0⟩], 2⟩).2 =
      ⟨404, Resp.err "not found"⟩ ∧
    delete_note 1 (delete_note 1 ⟨[⟨1, "a", some "", 0, 0⟩], 2⟩).2 =
      (⟨404, Resp.err "not found"⟩, (delete_note 1 ⟨[⟨1, "a", some "", 0, 0⟩], 2⟩).2) :=
  C7_delete_then_gone 1 ⟨[⟨1, "a", some "", 0, 0⟩], 2⟩ ⟨1, "a", some "", 0, 0⟩ rfl

/-- C2: an Update of an existing id succeeds with 200, overwrites each
field that is explicitly present in the body (including present as the
empty string) with its trimmed value, leaves each absent field untouched,
and unconditionally resets `updated_at` to the current time, even when the
supplied values equal the stored ones. -/
theorem C2_update_overwrite_semantics (id : Nat) (ot oc : Option String) (now : Nat)
    (db : DB) (n : Note) (h : db.getNote id = some n) :
    ∃ n' : Note,
      update_note id (some ⟨ot.map JVal.str, oc.map JVal.str⟩) now db =
        (⟨200, Resp.note n'.to_dict⟩,
         { db with notes := db.notes.map (fun m => if m.id = id then n' else m) }) ∧
      (∀ t, ot = some t → n'.title = t.trim) ∧
      (ot = none → n'.title = n.title) ∧
      (∀ c, oc = some c → n'.content = some c.trim) ∧
      (oc = none → n'.content = n.content) ∧
      n'.updated_at = now ∧ n'.id = n.id ∧ n'.created_at = n.created_at := by
  refine ⟨applyUpdate ⟨ot.map JVal.str, oc.map JVal.str⟩ now n, ?_, ?_, ?_, ?_, ?_,
    applyUpdate_updated_at _ _ _, applyUpdate_id _ _ _, applyUpdate_created_at _ _ _⟩
  · unfold update_note
    simp [h, parseBody]
  · intro t ht
    subst ht
    simp [applyUpdate_title, Body.get]
  · intro ht
    subst ht
    simp [applyUpdate_title, Body.get]
  · intro c hc
    subst hc
    simp [applyUpdate_content, Body.get]
  · intro hc
    subst hc
    simp [applyUpdate_content, Body.get]

theorem C2_update_overwrite_semantics_witness :
    DB.getNote ⟨[⟨1, "a", some "x", 0, 0⟩], 2⟩ 1 = some ⟨1, "a", some "x", 0, 0⟩ ∧
    (∃ n' : Note,
      update_note 1 (some ⟨(some "").map JVal.str, (none : Option String).map JVal.str⟩) 9
          ⟨[⟨1, "a", some "x", 0, 0⟩], 2⟩ =
        (⟨200, Resp.note n'.to_dict⟩,
         { notes := ([⟨1, "a", some "x", 0, 0⟩] : List Note).map
             (fun m => if m.id = 1 then n' else m)
           nextId := 2 }) ∧
      (∀ t, (some "" : Option String) = some t → n'.title = t.trim) ∧
      ((some "" : Option String) = none → n'.title = "a") ∧
      (∀ c, (none : Option String) = some c → n'.content = some c.trim) ∧
      ((none : Option String) = none → n'.content = some "x") ∧
      n'.updated_at = 9 ∧ n'.id = 1 ∧ n'.created_at = 0) :=
  ⟨rfl, C2_update_overwrite_semantics 1 (some "") none 9
    ⟨[⟨1, "a", some "x", 0, 0⟩], 2⟩ ⟨1, "a", some "x", 0, 0⟩ rfl⟩

/-- C9: a successful Update modifies only the targeted row, and on that
row only title, content and `updated_at`: the row's id and `created_at`
are unchanged, and every note with a different id is still stored
unmodified. -/
theorem C9_update_frame (id : Nat) (body : Option Body) (now : Nat) (db : DB) (n : Note)
    (h : db.getNote id = some n) :
    ∃ n' : Note,
      update_note id body now db =
        (⟨200, Resp.note n'.to_dict⟩,
         { db with notes := db.notes.map (fun m => if m.id = id then n' else m) }) ∧
      n'.id = n.id ∧ n'.created_at = n.created_at ∧
      (∀ m ∈ db.notes, m.id ≠ id → m ∈ (update_note id body now db).2.notes) := by
  have hu : update_note id body now db =
      (⟨200, Resp.note (applyUpdate (parseBody body) now n).to_dict⟩,
       { db with notes := db.notes.map (fun m => if m.id = id then applyUpdate (parseBody body) now n else m) }) := by
    unfold update_note
    simp [h]
  refine ⟨applyUpdate (parseBody body) now n, hu,
    applyUpdate_id _ _ _, applyUpdate_created_at _ _ _, ?_⟩
  intro m hm hne
  rw [hu]
  exact List.mem_map.mpr ⟨m, hm, by simp [hne]⟩

theorem C9_update_frame_witness :
    DB.getNote ⟨[⟨1, "a", some "x", 0, 0⟩, ⟨2, "b", none, 0, 0⟩], 3⟩ 1 =
      some ⟨1, "a", some "x", 0, 0⟩ ∧
    (∃ n' : Note,
      update_note 1 none 9 ⟨[⟨1, "a", some "x", 0, 0⟩, ⟨2, "b", none, 0, 0⟩], 3⟩ =
        (⟨200, Resp.note n'.to_dict⟩,
         { notes := ([⟨1, "a", some "x", 0, 0⟩, ⟨2, "b", none, 0, 0⟩] : List Note).map
             (fun m => if m.id = 1 then n' else m)
           nextId := 3 }) ∧
      n'.id = 1 ∧ n'.created_at = 0 ∧
      (∀ m ∈ ([⟨1, "a", some "x", 0, 0⟩, ⟨2, "b", none, 0, 0⟩] : List Note), m.id ≠ 1 →
        m ∈ (update_note 1 none 9
          ⟨[⟨1, "a", some "x", 0, 0⟩, ⟨2, "b", none, 0, 0⟩], 3⟩).2.notes)) :=
  ⟨rfl, C9_update_frame 1 none 9 ⟨[⟨1, "a", some "x", 0, 0⟩, ⟨2, "b", none, 0, 0⟩], 3⟩
    ⟨1, "a", some "x", 0, 0⟩ rfl⟩

/-- C8: the invariant `created_at <= updated_at` is preserved by every
operation: Create sets both fields to the same instant; Delete only
removes rows; Update resets `updated_at` to the current time, which (the
clock being monotone, so the current time is at least every stored
creation time) only moves it forward. -/
theorem C8_created_le_updated (db : DB) (hdb : TimesValid db) :
    (∀ body now, TimesValid (create_note body now db).2) ∧
    (∀ id, TimesValid (delete_note id db).2) ∧
    (∀ id body now, (∀ n ∈ db.notes, n.created_at ≤ now) →
      TimesValid (update_note id body now db).2) := by
  refine ⟨?_, ?_, ?_⟩
  · intro body now
    unfold create_note
    dsimp only
    split
    · exact hdb
    · intro m hm
      rcases List.mem_append.mp hm with hm | hm
      · exact hdb m hm
      · rw [List.mem_singleton] at hm
        subst hm
        exact Nat.le_refl _
  · intro id
    unfold delete_note
    cases hg : db.getNote id
    · exact hdb
    · intro m hm
      exact hdb m (List.mem_of_mem_filter hm)
  · intro id body now hclock
    unfold update_note
    cases hg : db.getNote id with
    | none => exact hdb
    | some n =>
      intro m hm
      rcases List.mem_map.mp hm with ⟨m0, hm0, heq⟩
      by_cases hid : m0.id = id
      · rw [if_pos hid] at heq
        subst heq
        rw [applyUpdate_created_at, applyUpdate_updated_at]
        exact hclock n (getNote_mem db id n hg).1
      · rw [if_neg hid] at heq
        subst heq
        exact hdb m0 hm0

theorem C8_created_le_updated_witness :
    TimesValid (⟨[⟨1, "a", some "", 0, 4⟩], 2⟩ : DB) ∧
    TimesValid (update_note 1 none 9 ⟨[⟨1, "a", some "", 0, 4⟩], 2⟩).2 :=
  ⟨by decide,
   (C8_created_le_updated ⟨[⟨1, "a", some "", 0, 4⟩], 2⟩ (by decide)).2.2 1 none 9
     (by decide)⟩

/-- C6: List returns all stored notes ordered by `created_at` descending
(a permutation of the store, sorted newest first); on an empty store it
returns the empty sequence with status 200 rather than an error; and for
three notes created at strictly increasing times t1 < t2 < t3 it returns
them in the order [t3, t2, t1]. -/
theorem C6_list_order :
    (∀ db : DB, ∃ ns : List Note,
        list_notes db = ⟨200, Resp.list (ns.map Note.to_dict)⟩ ∧
        ns.Perm db.notes ∧ List.Sorted createdDesc ns) ∧
    list_notes ⟨[], 1⟩ = ⟨200, Resp.list []⟩ ∧
    (∀ n1 n2 n3 : Note, ∀ k : Nat,
      n1.created_at < n2.created_at → n2.created_at < n3.created_at →
      list_notes ⟨[n1, n2, n3], k⟩ =
        ⟨200, Resp.list [n3.to_dict, n2.to_dict, n1.to_dict]⟩) := by
  refine ⟨fun db => ⟨sortByCreatedDesc db.notes, rfl,
    List.perm_insertionSort _ _, List.sorted_insertionSort _ _⟩, rfl, ?_⟩
  intro n1 n2 n3 k h12 h23
  have h13 := Nat.lt_trans h12 h23
  unfold list_notes sortByCreatedDesc
  simp [List.insertionSort, List.orderedInsert, createdDesc,
    Nat.not_le.mpr h12, Nat.not_le.mpr h23, Nat.not_le.mpr h13]

theorem C6_list_order_witness :
    list_notes ⟨[⟨1, "a", none, 10, 10⟩, ⟨2, "b", none, 20, 20⟩, ⟨3, "c", none, 30, 30⟩], 4⟩ =
      ⟨200, Resp.list [Note.to_dict ⟨3, "c", none, 30, 30⟩,
        Note.to_dict ⟨2, "b", none, 20, 20⟩, Note.to_dict ⟨1, "a", none, 10, 10⟩]⟩ :=
  C6_list_order.2.2 ⟨1, "a", none, 10, 10⟩ ⟨2, "b", none, 20, 20⟩ ⟨3, "c", none, 30, 30⟩ 4
    (by decide) (by decide)

/-- C1, counterexample: the claim that every operation rejects requests
that would leave a stored note with an empty trimmed title is false.
Starting from a store satisfying the invariant, an Update whose body
supplies the whitespace-only title `"   "` succeeds with status 200 and
stores the empty title: `update_note` performs no title validation. -/
theorem C1_counterexample :
    TitlesValid ⟨[⟨1, "a", some "", 0, 0⟩], 2⟩ ∧
    (update_note 1 (some ⟨some (JVal.str "   "), none⟩) 5
        ⟨[⟨1, "a", some "", 0, 0⟩], 2⟩).1.status = 200 ∧
    ¬ TitlesValid (update_note 1 (some ⟨some (JVal.str "   "), none⟩) 5
        ⟨[⟨1, "a", some "", 0, 0⟩], 2⟩).2 := by
  have ht : ("   " : String).trim = "" := by rw [trim_data_eq]; rfl
  have ha : ("a" : String).trim = "a" := by rw [trim_data_eq]; rfl
  have he : ("" : String).trim = "" := by rw [trim_data_eq]; rfl
  have e1 : update_note 1 (some ⟨some (JVal.str "   "), none⟩) 5
      ⟨[⟨1, "a", some "", 0, 0⟩], 2⟩ =
      (⟨200, Resp.note (Note.to_dict ⟨1, "", some "", 0, 5⟩)⟩,
       ⟨[⟨1, "", some "", 0, 5⟩], 2⟩) := by
    unfold update_note
    simp [DB.getNote, parseBody, applyUpdate, Body.get, ht]
  refine ⟨?_, ?_, ?_⟩
  · intro m hm
    rw [List.mem_singleton] at hm
    subst hm
    simp [ha]
  · rw [e1]
  · rw [e1]
    intro hT
    exact hT ⟨1, "", some "", 0, 5⟩ (by simp) he

/-- C1, amended: Create rejects a request whose title trims to empty
before any write, and Create, Delete (and the read-only Get and List)
preserve the invariant that every stored title is non-empty after
trimming; Update, however, performs no title validation, so it preserves
the invariant only for requests whose title field, when present as a
string, trims non-empty — an Update supplying a whitespace-only title
stores an empty title (see the counterexample). -/
theorem C1_amended_title_invariant (db : DB) (hdb : TitlesValid db) :
    (∀ body now,
      ((pyOrEmpty (Body.get (parseBody body).title)).trim = "" →
        create_note body now db = (⟨400, Resp.err "title is required"⟩, db)) ∧
      TitlesValid (create_note body now db).2) ∧
    (∀ id, TitlesValid (delete_note id db).2) ∧
    (∀ id body now,
      (∀ t, Body.get (parseBody body).title = some t → t.trim ≠ "") →
      TitlesValid (update_note id body now db).2) := by
  refine ⟨?_, ?_, ?_⟩
  · intro body now
    constructor
    · intro h
      unfold create_note
      simp [h]
    · unfold create_note
      dsimp only
      split
      · exact hdb
      · rename_i hne
        intro m hm
        rcases List.mem_append.mp hm with hm | hm
        · exact hdb m hm
        · rw [List.mem_singleton] at hm
          subst hm
          show ((pyOrEmpty (Body.get (parseBody body).title)).trim).trim ≠ ""
          rw [trim_trim]
          exact hne
  · intro id
    unfold delete_note
    cases hg : db.getNote id
    · exact hdb
    · intro m hm
      exact hdb m (List.mem_of_mem_filter hm)
  · intro id body now hguard
    unfold update_note
    cases hg : db.getNote id with
    | none => exact hdb
    | some n =>
      intro m hm
      rcases List.mem_map.mp hm with ⟨m0, hm0, heq⟩
      by_cases hid : m0.id = id
      · rw [if_pos hid] at heq
        subst heq
        rw [applyUpdate_title]
        cases hgt : Body.get (parseBody body).title with
        | none => simpa using hdb n (getNote_mem db id n hg).1
        | some t =>
          simp only [Option.elim]
          rw [trim_trim]
          exact hguard t hgt
      · rw [if_neg hid] at heq
        subst heq
        exact hdb m0 hm0

theorem C1_amended_title_invariant_witness :
    TitlesValid ⟨[⟨1, "a", some "", 0, 0⟩], 2⟩ ∧
    TitlesValid (update_note 1 (some ⟨some (JVal.str " b "), none⟩) 5
      ⟨[⟨1, "a", some "", 0, 0⟩], 2⟩).2 :=
  ⟨by intro m hm; rw [List.mem_singleton] at hm; subst hm; rw [trim_data_eq]; decide,
   (C1_amended_title_invariant ⟨[⟨1, "a", some "", 0, 0⟩], 2⟩
       (by intro m hm; rw [List.mem_singleton] at hm; subst hm; rw [trim_data_eq]; decide)).2.2
     1 (some ⟨some (JVal.str " b "), none⟩) 5
     (by intro t htt; simp [Body.get, parseBody] at htt; subst htt; rw [trim_data_eq]; decide)⟩

/-- C10: a missing or unparseable body is replaced by the empty JSON
object, and a JSON `null` field is indistinguishable from an absent
field: Create with a malformed body or a null title fails with the 400
"title is required" response; Create with a null content stores the
empty string; Update of an existing id with a malformed body or with
null fields succeeds with 200, leaves title and content untouched, and
still resets `updated_at` to the current time. -/
theorem C10_null_and_malformed (db : DB) (now : Nat) :
    Body.get (some JVal.null) = Body.get none ∧
    parseBody none = { title := none, content := none } ∧
    create_note none now db = (⟨400, Resp.err "title is required"⟩, db) ∧
    (∀ c, create_note (some ⟨some JVal.null, c⟩) now db =
      (⟨400, Resp.err "title is required"⟩, db)) ∧
    (∀ t, t.trim ≠ "" →
      create_note (some ⟨some (JVal.str t), some JVal.null⟩) now db =
        (⟨201, Resp.note ⟨db.nextId, t.trim, "", isoformat now, isoformat now⟩⟩,
         ⟨db.notes ++ [⟨db.nextId, t.trim, some "", now, now⟩], db.nextId + 1⟩)) ∧
    (∀ id n, db.getNote id = some n →
      update_note id none now db =
        (⟨200, Resp.note (Note.to_dict { n with updated_at := now })⟩,
         { db with notes := db.notes.map (fun m => if m.id = id then { n with updated_at := now } else m) }) ∧
      update_note id (some ⟨some JVal.null, some JVal.null⟩) now db =
        (⟨200, Resp.note (Note.to_dict { n with updated_at := now })⟩,
         { db with notes := db.notes.map (fun m => if m.id = id then { n with updated_at := now } else m) })) := by
  have he : ("" : String).trim = "" := by rw [trim_data_eq]; rfl
  refine ⟨rfl, rfl, ?_, ?_, ?_, ?_⟩
  · unfold create_note
    simp [parseBody, Body.get, pyOrEmpty, he]
  · intro c
    unfold create_note
    simp [parseBody, Body.get, pyOrEmpty, he]
  · intro t h
    unfold create_note
    simp [parseBody, Body.get, pyOrEmpty, he, h, Note.to_dict, isoformat]
  · intro id n hgn
    constructor <;>
      (unfold update_note
       simp [parseBody, hgn, applyUpdate, Body.get, Note.to_dict])

theorem C10_null_and_malformed_witness :
    create_note none 3 ⟨[], 1⟩ = (⟨400, Resp.err "title is required"⟩, (⟨[], 1⟩ : DB)) ∧
    create_note (some ⟨some (JVal.str " x "), some JVal.null⟩) 3 ⟨[], 1⟩ =
      (⟨201, Resp.note ⟨1, (" x " : String).trim, "", isoformat 3, isoformat 3⟩⟩,
       ⟨[⟨1, (" x " : String).trim, some "", 3, 3⟩], 2⟩) ∧
    update_note 1 none 9 ⟨[⟨1, "a", some "x", 0, 0⟩], 2⟩ =
      (⟨200, Resp.note (Note.to_dict ⟨1, "a", some "x", 0, 9⟩)⟩,
       ⟨([⟨1, "a", some "x", 0, 0⟩] : List Note).map
          (fun m => if m.id = 1 then (⟨1, "a", some "x", 0, 9⟩ : Note) else m), 2⟩) :=
  ⟨(C10_null_and_malformed ⟨[], 1⟩ 3).2.2.1,
   (C10_null_and_malformed ⟨[], 1⟩ 3).2.2.2.2.1 " x " (by rw [trim_data_eq]; decide),
   ((C10_null_and_malformed ⟨[⟨1, "a", some "x", 0, 0⟩], 2⟩ 9).2.2.2.2.2 1
     ⟨1, "a", some "x", 0, 0⟩ rfl).1⟩

end NotesApp
